import Mathlib

/-!
The `migrate` command line: dispatcher, progress pipe and timer.

A shallow embedding of `src/main.go` (package `migratemain`).

* What the program does to the outside world is recorded as an ordered list
  of `Event`s: writes to standard output (plain or through a `color` printer),
  writes to the error stream, the creation of a pipe, and calls into the
  migration engine.
* What the outside world gives to the program is an `Env`: the working
  directory, the engine's answers, the events an engine call sends on its
  pipe before closing it, and the time that passes between the two clock
  readings of the timer.
* `os.Exit` is an `Outcome`: the run either returns or exits with a status.
-/

namespace Migrate

/-! ## Event model -/

/-- Modelled from the spec: the package `migrate/direction` is not part of the
source. Section 3 of the spec gives `Direction` as the enumeration
`{ Up, Down }`; `writePipe` compares a step's direction against `direction.Up`
and `direction.Down`. -/
inductive Direction where
  | Up
  | Down
  deriving DecidableEq, Repr

/-- Modelled from the spec: the package `file` is not part of the source.
`writePipe` reads the fields `Direction` and `FileName` of a `file.File`;
the spec's `MigrationStep` also carries the version. -/
structure File where
  Version : Nat
  FileName : String
  Direction : Direction
  deriving DecidableEq, Repr

/-- One value received from the pipe (`chan interface{}`), by the dynamic type
the type switch of `writePipe` tells apart: a `string`, an `error` (carried as
the text of its `Error()`), a `file.File`, or anything else (carried as the
text `fmt.Sprint` gives it). -/
inductive Item where
  | str (s : String)
  | err (msg : String)
  | file (f : File)
  | other (sprint : String)
  deriving DecidableEq, Repr

/-- The two colours `writePipe` asks the `color` package for. -/
inductive Color where
  | FgRed
  | FgBlue
  deriving DecidableEq, Repr

/-- An engine entry point together with the arguments it is called with
(the pipe argument of the streaming calls is the pipe created just before). -/
inductive EngineCall where
  | Create (url path name : String)
  | Migrate (url path : String) (relativeN : Int)
  | Up (url path : String)
  | Down (url path : String)
  | Redo (url path : String)
  | Reset (url path : String)
  | Version (url path : String)
  deriving DecidableEq, Repr

/-- One observable action of the program. -/
inductive Event where
  | stdout (text : String)
  | colored (c : Color) (text : String)
  | stderr (text : String)
  | pipeNew
  | engine (call : EngineCall)
  deriving DecidableEq, Repr

/-! ## The reporter: `writePipe` -/

/-- The receive loop of `writePipe` (lines 167-199) over the items that are
sent on the pipe before it is closed. `okFlag` is the loop's flag and `out`
what has been printed so far; the empty list is the receive with
`more == false`, which returns the flag. -/
def writePipeLoop : List Item → Bool → List Event → Bool × List Event
  | [], okFlag, out => (okFlag, out)
  | Item.str s :: rest, okFlag, out =>
      writePipeLoop rest okFlag (out ++ [Event.stdout (s ++ "\n")])
  | Item.err msg :: rest, _, out =>
      writePipeLoop rest false (out ++ [Event.colored Color.FgRed (msg ++ " " ++ "\n" ++ "\n")])
  | Item.file f :: rest, okFlag, out =>
      let glyph : List Event :=
        if f.Direction = Direction.Up then [Event.colored Color.FgBlue ">"]
        else if f.Direction = Direction.Down then [Event.colored Color.FgBlue "<"]
        else []
      writePipeLoop rest okFlag (out ++ glyph ++ [Event.stdout (" " ++ f.FileName ++ "\n")])
  | Item.other text :: rest, okFlag, out =>
      writePipeLoop rest okFlag (out ++ [Event.stdout (text ++ "\n")])

/-- The function `writePipe` (lines 164-202). A nil pipe is `none`; a non-nil
pipe is the list of items sent on it before the producer closes it. The result
is the returned flag and what was printed. -/
def writePipe (pipe : Option (List Item)) : Bool × List Event :=
  match pipe with
  | none => (true, [])
  | some items => writePipeLoop items true []

/-- The rendering rules of section 4.3 of the spec, one event at a time, with
the concrete texts of the source: a message is a plain line, a failure is the
error text in red, a migration step is a blue glyph and then the file name, any
other payload is its default text. -/
def render : Item → List Event
  | Item.str s => [Event.stdout (s ++ "\n")]
  | Item.err msg => [Event.colored Color.FgRed (msg ++ " \n\n")]
  | Item.file f =>
      [Event.colored Color.FgBlue (match f.Direction with
        | Direction.Up => ">"
        | Direction.Down => "<"),
       Event.stdout (" " ++ f.FileName ++ "\n")]
  | Item.other text => [Event.stdout (text ++ "\n")]

/-- Whether an item is an error value, a `Failure` event. -/
def Item.isFailure : Item → Bool
  | Item.err _ => true
  | _ => false

/-! ## Parsing the argument: `strconv.Atoi` -/

/-- The digits of a decimal numeral read from the left, onto the value `acc`
read so far; `none` at the first byte that is not one of `0` to `9`. -/
def parseDigits : List Char → Nat → Option Nat
  | [], acc => some acc
  | c :: cs, acc =>
      if '0' ≤ c ∧ c ≤ '9' then parseDigits cs (acc * 10 + (c.toNat - '0'.toNat)) else none

/-- The integer a string denotes as a signed decimal numeral: an optional `+`
or `-` and then at least one digit; `none` for every other string. -/
def decimalValue (s : String) : Option Int :=
  match s.toList with
  | [] => none
  | c :: cs =>
      if c = '-' then
        (if cs = [] then none else (parseDigits cs 0).map (fun n => -(n : Int)))
      else if c = '+' then
        (if cs = [] then none else (parseDigits cs 0).map (fun n => (n : Int)))
      else (parseDigits (c :: cs) 0).map (fun n => (n : Int))

/-- Go's `strconv.Atoi` for a 64-bit `int`, by its documented behaviour (the
standard library is outside the repository): the value of a signed decimal
numeral that lies in the range of `int`, and an error (`none`) for a string
that is not such a numeral or whose value is out of range. -/
def Atoi (s : String) : Option Int :=
  match decimalValue s with
  | none => none
  | some n => if -(2 : Int) ^ 63 ≤ n ∧ n < (2 : Int) ^ 63 then some n else none

/-- The value of a 64-bit `int` computation whose exact result is `n`:
conversions to `int` and `int` subtraction keep the low 64 bits, read as a
two's complement number. -/
def wrapInt (n : Int) : Int :=
  (n + (2 : Int) ^ 63) % (2 : Int) ^ 64 - (2 : Int) ^ 63

/-! ## The timer: `printTimer`

`time.Duration` is a count of nanoseconds in an `int64`; its `Seconds` and the
`%.4f` verb work on `float64`. A `float64` value is carried here as the exact
fraction it stands for, and every floating-point operation is the exact
operation followed by rounding to the nearest value with a 53-bit significand,
ties to even. Durations are at most `2^63` nanoseconds in size, so neither
overflow nor subnormal numbers occur anywhere in `printTimer`. -/

/-- An exact fraction `num / den` with a positive denominator, not
necessarily in lowest terms. -/
structure Frac where
  num : Int
  den : Nat
  deriving DecidableEq, Repr

/-- The position of the highest set bit of `n`, that is `⌊log₂ n⌋`, for
`1 ≤ n`; `fuel` bounds the number of halvings. -/
def log2Floor : Nat → Nat → Nat
  | 0, _ => 0
  | fuel + 1, n => if n < 2 then 0 else log2Floor fuel (n / 2) + 1

/-- The fraction `a / b` rounded to the nearest natural number, a tie going to
the even neighbour. -/
def roundHalfEven (a b : Nat) : Nat :=
  let q := a / b
  let r := a % b
  if 2 * r < b then q
  else if b < 2 * r then q + 1
  else if q % 2 = 0 then q else q + 1

/-- The exponent `e` with `2 ^ e ≤ a / d < 2 ^ (e + 1)`, for `1 ≤ a` and
`1 ≤ d`. -/
def binaryExponent (a d : Nat) : Int :=
  let k : Int := (log2Floor a a : Int) - (log2Floor d d : Int)
  if 0 ≤ k then (if d * 2 ^ k.toNat ≤ a then k else k - 1)
  else (if d ≤ a * 2 ^ (-k).toNat then k else k - 1)

/-- Rounding of an exact value to `float64`: the nearest number with a 53-bit
significand, ties to even. -/
def roundFloat64 (x : Frac) : Frac :=
  if x.num = 0 then ⟨0, 1⟩
  else
    let a := x.num.natAbs
    let s : Int := binaryExponent a x.den - 52
    let sign : Int := if x.num < 0 then -1 else 1
    if 0 ≤ s then ⟨sign * (roundHalfEven a (x.den * 2 ^ s.toNat) * 2 ^ s.toNat : Nat), 1⟩
    else ⟨sign * (roundHalfEven (a * 2 ^ (-s).toNat) x.den : Nat), 2 ^ (-s).toNat⟩

/-- The conversion `float64(n)` of an integer below `2 ^ 53` in size, which is
exact. -/
def Frac.ofInt (n : Int) : Frac := ⟨n, 1⟩

/-- The `float64` sum `x + y`. -/
def Frac.fadd (x y : Frac) : Frac :=
  roundFloat64 ⟨x.num * y.den + y.num * x.den, x.den * y.den⟩

/-- The `float64` quotient `x / y` by a positive `y`. -/
def Frac.fdiv (x y : Frac) : Frac :=
  roundFloat64 ⟨x.num * y.den, x.den * y.num.natAbs⟩

/-- The comparison `y < x` of two values. -/
def Frac.gt (x y : Frac) : Bool :=
  decide (y.num * x.den < x.num * y.den)

/-- The method `Duration.Seconds` of Go's `time` package:
`float64(d / Second) + float64(d % Second) / 1e9`, with Go's truncating
integer division and remainder. -/
def Seconds (d : Int) : Frac :=
  Frac.fadd (Frac.ofInt (Int.tdiv d 1000000000))
    (Frac.fdiv (Frac.ofInt (Int.tmod d 1000000000)) (Frac.ofInt 1000000000))

/-- Four decimal digits of a number below `10000`, with leading zeros. -/
def pad4 (k : Nat) : String :=
  String.mk [Nat.digitChar (k / 1000 % 10), Nat.digitChar (k / 100 % 10),
    Nat.digitChar (k / 10 % 10), Nat.digitChar (k % 10)]

/-- The verb `%.4f` of `fmt`: the exact value of the `float64` rounded to four
decimal places, ties to even, written as sign, integer part, point and four
digits. -/
def formatFixed4 (x : Frac) : String :=
  let n := roundHalfEven (x.num.natAbs * 10000) x.den
  (if x.num < 0 then "-" else "") ++ toString (n / 10000) ++ "." ++ pad4 (n % 10000)

/-- The function `printTimer` (lines 213-220), as the text it prints when
`time.Now().Sub(timerStart)` is the duration of `elapsed` nanoseconds. -/
def printTimer (elapsed : Int) : String :=
  let diff := Seconds elapsed
  if Frac.gt diff (Frac.ofInt 60) then
    "\n" ++ formatFixed4 (Frac.fdiv diff (Frac.ofInt 60)) ++ " minutes\n"
  else
    "\n" ++ formatFixed4 diff ++ " seconds\n"

/-! ## The dispatcher: `Run` -/

/-- Modelled from the spec: the package `file` is not part of the source. The
`create` case of `Run` reads the version and the two file names of the value
`migrate.Create` returns. -/
structure MigrationFile where
  Version : Nat
  UpFile : File
  DownFile : File
  deriving DecidableEq, Repr

/-- What the outside world answers during one run. An engine error is carried
as the text `fmt.Println` prints for it. The streaming entry points are given
by the items they send on their pipe before closing it. -/
structure Env where
  /-- The directory `os.Getwd` returns, the empty string when it fails. -/
  getwd : String
  /-- The package constant `Version`, the version of the tool. -/
  Version : String
  /-- The answer of `migrate.Create url path name`. -/
  create : String → String → String → Except String MigrationFile
  /-- The answer of `migrate.Version url path`, an unsigned 64-bit number. -/
  version : String → String → Except String Nat
  /-- The items `migrate.Migrate pipe url path n` sends. -/
  migrate : String → String → Int → List Item
  /-- The items `migrate.Up pipe url path` sends. -/
  up : String → String → List Item
  /-- The items `migrate.Down pipe url path` sends. -/
  down : String → String → List Item
  /-- The items `migrate.Redo pipe url path` sends. -/
  redo : String → String → List Item
  /-- The items `migrate.Reset pipe url path` sends. -/
  reset : String → String → List Item
  /-- The nanoseconds between `timerStart = time.Now()` and the `time.Now()`
  of `printTimer`. -/
  elapsed : Int

/-- How a run ends: `Run` returns to `main`, which ends the process with
status 0, or `os.Exit` ends it with the given status. -/
inductive Outcome where
  | returned
  | exited (status : Nat)
  deriving DecidableEq, Repr

/-- The exit status of the process. -/
def Outcome.status : Outcome → Nat
  | Outcome.returned => 0
  | Outcome.exited status => status

/-- A finished run: everything it did, in order, and how it ended. -/
structure Result where
  trace : List Event
  outcome : Outcome
  deriving DecidableEq, Repr

/-- The function `verifyMigrationsPath` (lines 204-209), followed by the rest
of the run `next`: an empty path prints the message and exits with status 1,
and the rest does not happen. -/
def verifyMigrationsPath (path : String) (next : Result) : Result :=
  if path = "" then ⟨[Event.stdout "Please specify path\n"], Outcome.exited 1⟩
  else next

/-- The statements every streaming case of `Run` ends with (lines 69-76,
95-102, 106-113, 117-124, 128-135, 139-146): read the clock, create the pipe
with `pipep.New()`, start the engine call `call` on it with `go`, drain the
pipe with `writePipe`, print the timer, and exit with status 1 when the flag
is false. `items` is what the engine call sends before it closes the pipe. -/
def streamPipe (env : Env) (call : EngineCall) (items : List Item) : Result :=
  let w := writePipe (some items)
  ⟨[Event.pipeNew, Event.engine call] ++ w.2 ++ [Event.stdout (printTimer env.elapsed)],
    if w.1 then Outcome.returned else Outcome.exited 1⟩

/-- The text `helpCmd` (lines 222-239) writes to the error stream. -/
def usage : String :=
  "usage: migrate [-path=<path>] -url=<url> <command> [<args>]\n\nCommands:\n   create <name>  Create a new migration\n   up             Apply all -up- migrations\n   down           Apply all -down- migrations\n   reset          Down followed by Up\n   redo           Roll back most recent migration, then apply it again\n   version        Show current migration version\n   migrate <n>    Apply migrations -n|+n\n   goto <v>       Migrate to version v\n   help           Show this help\n\n'-path' defaults to current working directory.\n"

/-- The function `helpCmd` (lines 222-239). -/
def helpCmd : Result :=
  ⟨[Event.stderr usage], Outcome.returned⟩

/-- The function `Run` (lines 34-162). -/
def Run (env : Env) (migrationsPath url command arg : String) : Result :=
  let migrationsPath := if migrationsPath = "" then env.getwd else migrationsPath
  if command = "showversion" then
    ⟨[Event.stdout (env.Version ++ "\n")], Outcome.exited 0⟩
  else if command = "create" then
    verifyMigrationsPath migrationsPath
      (if arg = "" then ⟨[Event.stdout "Please specify name.\n"], Outcome.exited 1⟩
       else
        match env.create url migrationsPath arg with
        | Except.error err =>
            ⟨[Event.engine (EngineCall.Create url migrationsPath arg),
              Event.stdout (err ++ "\n")], Outcome.exited 1⟩
        | Except.ok migrationFile =>
            ⟨[Event.engine (EngineCall.Create url migrationsPath arg),
              Event.stdout ("Version " ++ toString migrationFile.Version ++
                " migration files created in " ++ migrationsPath ++ ":\n"),
              Event.stdout (migrationFile.UpFile.FileName ++ "\n"),
              Event.stdout (migrationFile.DownFile.FileName ++ "\n")], Outcome.returned⟩)
  else if command = "migrate" then
    verifyMigrationsPath migrationsPath
      (match Atoi arg with
       | none => ⟨[Event.stdout "Unable to parse param <n>.\n"], Outcome.exited 1⟩
       | some relativeNInt =>
          streamPipe env (EngineCall.Migrate url migrationsPath relativeNInt)
            (env.migrate url migrationsPath relativeNInt))
  else if command = "goto" then
    verifyMigrationsPath migrationsPath
      (match Atoi arg with
       | none => ⟨[Event.stdout "Unable to parse param <v>.\n"], Outcome.exited 1⟩
       | some toVersionInt =>
          if toVersionInt < 0 then
            ⟨[Event.stdout "Unable to parse param <v>.\n"], Outcome.exited 1⟩
          else
            match env.version url migrationsPath with
            | Except.error err =>
                ⟨[Event.engine (EngineCall.Version url migrationsPath),
                  Event.stdout (err ++ "\n")], Outcome.exited 1⟩
            | Except.ok currentVersion =>
                let relativeNInt := wrapInt (toVersionInt - wrapInt currentVersion)
                let r := streamPipe env (EngineCall.Migrate url migrationsPath relativeNInt)
                  (env.migrate url migrationsPath relativeNInt)
                ⟨Event.engine (EngineCall.Version url migrationsPath) :: r.trace, r.outcome⟩)
  else if command = "up" then
    verifyMigrationsPath migrationsPath
      (streamPipe env (EngineCall.Up url migrationsPath) (env.up url migrationsPath))
  else if command = "down" then
    verifyMigrationsPath migrationsPath
      (streamPipe env (EngineCall.Down url migrationsPath) (env.down url migrationsPath))
  else if command = "redo" then
    verifyMigrationsPath migrationsPath
      (streamPipe env (EngineCall.Redo url migrationsPath) (env.redo url migrationsPath))
  else if command = "reset" then
    verifyMigrationsPath migrationsPath
      (streamPipe env (EngineCall.Reset url migrationsPath) (env.reset url migrationsPath))
  else if command = "version" then
    verifyMigrationsPath migrationsPath
      (match env.version url migrationsPath with
       | Except.error err =>
          ⟨[Event.engine (EngineCall.Version url migrationsPath),
            Event.stdout (err ++ "\n")], Outcome.exited 1⟩
       | Except.ok version =>
          ⟨[Event.engine (EngineCall.Version url migrationsPath),
            Event.stdout (toString version ++ "\n")], Outcome.returned⟩)
  else
    helpCmd

/-! ## Names used in the statements -/

/-- The path `Run` works with: the given one, or the working directory when
the given one is empty (lines 35-37). -/
def resolvedPath (env : Env) (migrationsPath : String) : String :=
  if migrationsPath = "" then env.getwd else migrationsPath

/-- The commands `Run` has a case of its own for, `help` apart. -/
def knownCommands : List String :=
  ["showversion", "create", "migrate", "goto", "up", "down", "redo", "reset", "version"]

/-- A run that, after the actions `before`, creates the pipe, starts `call` on
it, prints what `writePipe` prints for `items`, prints the timer line last, and
then ends with status 1 exactly when `writePipe` returned false and returns
otherwise. -/
def DrainsThenTimes (env : Env) (before : List Event) (call : EngineCall)
    (items : List Item) (r : Result) : Prop :=
  r.trace = before ++ [Event.pipeNew, Event.engine call] ++ (writePipe (some items)).2 ++
      [Event.stdout (printTimer env.elapsed)] ∧
  (r.outcome.status = 1 ↔ (writePipe (some items)).1 = false) ∧
  ((writePipe (some items)).1 = true → r.outcome = Outcome.returned)

/-- Whether an event is a call of the engine's version query. -/
def Event.isVersionQuery : Event → Bool
  | Event.engine (EngineCall.Version _ _) => true
  | _ => false

/-- The rational number a fraction stands for. -/
def Frac.val (x : Frac) : ℚ := (x.num : ℚ) / (x.den : ℚ)

/-- The text is the value `y` written with four decimal places: a minus sign
when `y` is negative, then the integer part, a point and four digits of the
multiple of `1/10000` that is nearest to the size of `y`. -/
def FourPlaces (y : Frac) (text : String) : Prop :=
  ∃ n : Nat,
    text = (if y.num < 0 then "-" else "") ++ toString (n / 10000) ++ "." ++ pad4 (n % 10000) ∧
    (pad4 (n % 10000)).length = 4 ∧
    abs ((n : ℚ) / 10000 - abs y.val) ≤ 1 / 20000

/-! ## Sample environments -/

/-- An engine whose streaming calls report one message and one applied
migration and whose version query answers 3, run from `/srv/app`, with 45
seconds on the clock. -/
def sampleEnv : Env where
  getwd := "/srv/app"
  Version := "1.0.0"
  create := fun _ _ name =>
    Except.ok ⟨4, ⟨4, "004_" ++ name ++ ".up.sql", Direction.Up⟩,
      ⟨4, "004_" ++ name ++ ".down.sql", Direction.Down⟩⟩
  version := fun _ _ => Except.ok 3
  migrate := fun _ _ _ => [Item.str "applying 001", Item.file ⟨1, "001_init.up.sql", Direction.Up⟩]
  up := fun _ _ => [Item.str "applying 001", Item.file ⟨1, "001_init.up.sql", Direction.Up⟩]
  down := fun _ _ => [Item.file ⟨1, "001_init.down.sql", Direction.Down⟩]
  redo := fun _ _ => [Item.err "no such table"]
  reset := fun _ _ => []
  elapsed := 45000000000

/-- The sample engine when the working directory cannot be found. -/
def lostEnv : Env :=
  { sampleEnv with getwd := "" }

/-- The sample engine when the version query fails. -/
def brokenEnv : Env :=
  { sampleEnv with version := fun _ _ => Except.error "connection refused" }

/-- The sample engine when the store is at version `2 ^ 63 + 1`. -/
def farEnv : Env :=
  { sampleEnv with version := fun _ _ => Except.ok 9223372036854775809 }

/-! ## The reporter: proofs -/

/-- The receive loop adds the rendering of every item, in order, to what was
printed before, and clears the flag exactly at an error item. -/
theorem writePipeLoop_eq (items : List Item) (okFlag : Bool) (out : List Event) :
    writePipeLoop items okFlag out =
      (okFlag && items.all (fun i => !i.isFailure), out ++ (items.map render).flatten) := by
  induction items generalizing okFlag out with
  | nil => simp [writePipeLoop]
  | cons item rest ih =>
    cases item with
    | str s => simp [writePipeLoop, ih, render, Item.isFailure]
    | err msg => simp [writePipeLoop, ih, render, Item.isFailure, String.append_assoc]
    | file f =>
      obtain ⟨v, name, dir⟩ := f
      cases dir <;> simp [writePipeLoop, ih, render, Item.isFailure]
    | other text => simp [writePipeLoop, ih, render, Item.isFailure]

/-- The flag and the output of `writePipe` on a pipe that is not nil. -/
theorem writePipe_some (items : List Item) :
    writePipe (some items) =
      (items.all (fun i => !i.isFailure), (items.map render).flatten) := by
  simp [writePipe, writePipeLoop_eq]

/-- Claim C1: for every finite sequence of items sent on a non-nil pipe that is
then closed, `writePipe` returns false if and only if at least one item of the
sequence is an error value; it returns true on the empty sequence and on every
sequence of strings, files and other payloads. -/
theorem writePipe_false_iff_failure (items : List Item) :
    ((writePipe (some items)).1 = false ↔ ∃ msg, Item.err msg ∈ items) ∧
    (writePipe (some [])).1 = true ∧
    ((∀ i ∈ items, i.isFailure = false) ↔ (writePipe (some items)).1 = true) := by
  rw [writePipe_some, writePipe_some]
  refine ⟨?_, by simp, ?_⟩
  · constructor
    · intro h
      by_contra hne
      have hall : items.all (fun i => !i.isFailure) = true := by
        rw [List.all_eq_true]
        intro i hi
        cases i with
        | err msg => exact absurd ⟨msg, hi⟩ hne
        | str s => rfl
        | file f => rfl
        | other text => rfl
      simp only [hall] at h
      exact Bool.noConfusion h
    · rintro ⟨msg, hm⟩
      cases hall : items.all (fun i => !i.isFailure) with
      | false => rfl
      | true =>
        rw [List.all_eq_true] at hall
        have := hall _ hm
        simp [Item.isFailure] at this
  · simp

/-- Claim C2: the output of `writePipe` is the concatenation, in the order of
sending, of the rendering of each item; in particular the items that follow an
error item are rendered after it, and nothing is dropped or printed twice. -/
theorem writePipe_output_in_order (items before after : List Item) (msg : String) :
    (writePipe (some items)).2 = (items.map render).flatten ∧
    (writePipe (some (before ++ Item.err msg :: after))).2 =
      (writePipe (some before)).2 ++ [Event.colored Color.FgRed (msg ++ " \n\n")] ++
        (writePipe (some after)).2 := by
  simp [writePipe_some, render]

/-- Claim C9: a `file.File` item anywhere in the stream is printed as the glyph
`>` for direction Up, or `<` for direction Down, then a space, the file name
and a newline, between the output of the items before it and of those after
it; the flag is what it is without the item. -/
theorem writePipe_file_step (before after : List Item) (version : Nat) (name : String) :
    writePipe (some (before ++ Item.file ⟨version, name, Direction.Up⟩ :: after)) =
      ((writePipe (some (before ++ after))).1,
        (writePipe (some before)).2 ++
          [Event.colored Color.FgBlue ">", Event.stdout (" " ++ name ++ "\n")] ++
          (writePipe (some after)).2) ∧
    writePipe (some (before ++ Item.file ⟨version, name, Direction.Down⟩ :: after)) =
      ((writePipe (some (before ++ after))).1,
        (writePipe (some before)).2 ++
          [Event.colored Color.FgBlue "<", Event.stdout (" " ++ name ++ "\n")] ++
          (writePipe (some after)).2) := by
  simp [writePipe_some, render, Item.isFailure]

/-! ## The dispatcher: proofs -/

/-- Claim C10: for the command `help` and for every command that has no case
of its own (the empty string among them), `Run` writes the usage text to the
error stream and nothing else, calls no engine function, creates no pipe and
returns, so the exit status is 0, whatever the path, url and argument. -/
theorem Run_help_or_unknown (env : Env) (migrationsPath url command arg : String)
    (h : command = "help" ∨ command ∉ knownCommands) :
    Run env migrationsPath url command arg = ⟨[Event.stderr usage], Outcome.returned⟩ ∧
    (Run env migrationsPath url command arg).outcome.status = 0 := by
  have key : Run env migrationsPath url command arg = ⟨[Event.stderr usage], Outcome.returned⟩ := by
    rcases h with h | h
    · subst h
      simp [Run, helpCmd]
    · simp only [knownCommands, List.mem_cons, List.mem_singleton, not_or, List.mem_nil_iff,
        or_false] at h
      obtain ⟨h1, h2, h3, h4, h5, h6, h7, h8, h9⟩ := h
      simp [Run, helpCmd, h1, h2, h3, h4, h5, h6, h7, h8, h9]
  rw [key]
  exact ⟨rfl, rfl⟩

/-- Claim C10 at the empty command with an empty path, when even the working
directory is not known. -/
theorem Run_help_or_unknown_witness :
    ("" = "help" ∨ "" ∉ knownCommands) ∧
    Run lostEnv "" "" "" "" = ⟨[Event.stderr usage], Outcome.returned⟩ ∧
    (Run lostEnv "" "" "" "").outcome.status = 0 :=
  ⟨by decide, Run_help_or_unknown lostEnv "" "" "" "" (by decide)⟩

/-- A streaming run has the shape `DrainsThenTimes` asks for. -/
theorem streamPipe_drains (env : Env) (call : EngineCall) (items : List Item) :
    DrainsThenTimes env [] call items (streamPipe env call items) := by
  refine ⟨by simp [streamPipe], ?_, ?_⟩
  · cases h : (writePipe (some items)).1 <;> simp [streamPipe, h, Outcome.status]
  · intro h
    simp [streamPipe, h]

/-- Claim C7, as the code has it: with an empty `migrationsPath` the command
`up` runs on the working directory; only when that is empty too does `Run`
print "Please specify path" and exit with status 1, before any pipe or engine
call. -/
theorem Run_up_empty_path (env : Env) (url arg : String) :
    Run env "" url "up" arg =
      if env.getwd = "" then ⟨[Event.stdout "Please specify path\n"], Outcome.exited 1⟩
      else
        ⟨[Event.pipeNew, Event.engine (EngineCall.Up url env.getwd)] ++
            (writePipe (some (env.up url env.getwd))).2 ++
            [Event.stdout (printTimer env.elapsed)],
          if (writePipe (some (env.up url env.getwd))).1 then Outcome.returned
          else Outcome.exited 1⟩ := by
  by_cases hg : env.getwd = "" <;> simp [Run, verifyMigrationsPath, streamPipe, hg]

/-- Claim C7 fails as stated: from the directory `/srv/app`, `Run` with an
empty path and the command `up` creates a pipe, calls the engine's `Up` on
`/srv/app`, prints the progress and the timer, and returns. -/
theorem empty_path_up_runs_in_getwd :
    Run sampleEnv "" "db" "up" "" =
      ⟨[Event.pipeNew, Event.engine (EngineCall.Up "db" "/srv/app"),
        Event.stdout "applying 001\n", Event.colored Color.FgBlue ">",
        Event.stdout " 001_init.up.sql\n", Event.stdout "\n45.0000 seconds\n"],
       Outcome.returned⟩ := by
  decide

/-- Claim C5, as the code has it: when the argument of `migrate` does not
parse, `Run` prints one line and exits with status 1 without creating a pipe
and without any engine call; the line is the parse error when the path is not
empty, and "Please specify path" when it is. -/
theorem Run_migrate_unparsable (env : Env) (migrationsPath url arg : String)
    (h : Atoi arg = none) :
    Run env migrationsPath url "migrate" arg =
      ⟨[Event.stdout (if resolvedPath env migrationsPath = "" then "Please specify path\n"
          else "Unable to parse param <n>.\n")], Outcome.exited 1⟩ ∧
    (Run env migrationsPath url "migrate" arg).outcome.status = 1 ∧
    Event.pipeNew ∉ (Run env migrationsPath url "migrate" arg).trace ∧
    ∀ call, Event.engine call ∉ (Run env migrationsPath url "migrate" arg).trace := by
  have key : Run env migrationsPath url "migrate" arg =
      ⟨[Event.stdout (if resolvedPath env migrationsPath = "" then "Please specify path\n"
          else "Unable to parse param <n>.\n")], Outcome.exited 1⟩ := by
    by_cases hp : resolvedPath env migrationsPath = ""
    · have hp2 := hp
      unfold resolvedPath at hp2
      simp [Run, verifyMigrationsPath, hp, hp2]
    · have hp2 := hp
      unfold resolvedPath at hp2
      simp [Run, verifyMigrationsPath, hp, hp2, h]
  rw [key]
  simp [Outcome.status]

/-- Claim C5 at the argument `abc`, run from `/srv/app`. -/
theorem Run_migrate_unparsable_witness :
    Atoi "abc" = none ∧
    Run sampleEnv "" "db" "migrate" "abc" =
      ⟨[Event.stdout "Unable to parse param <n>.\n"], Outcome.exited 1⟩ :=
  ⟨by decide, (Run_migrate_unparsable sampleEnv "" "db" "abc" (by decide)).1⟩

/-- Claim C5 fails as stated: with an empty path and no working directory,
`migrate abc` does not print the parse error; it prints "Please specify
path". -/
theorem unparsable_migrate_without_path :
    Atoi "abc" = none ∧
    Run lostEnv "" "db" "migrate" "abc" =
      ⟨[Event.stdout "Please specify path\n"], Outcome.exited 1⟩ ∧
    Event.stdout "Unable to parse param <n>.\n" ∉ (Run lostEnv "" "db" "migrate" "abc").trace := by
  decide

/-- What `Run` does for `goto`, case by case on the path, the argument and the
answer of the version query. -/
theorem Run_goto_eq (env : Env) (migrationsPath url arg : String) :
    Run env migrationsPath url "goto" arg =
      if resolvedPath env migrationsPath = "" then
        ⟨[Event.stdout "Please specify path\n"], Outcome.exited 1⟩
      else
        match Atoi arg with
        | none => ⟨[Event.stdout "Unable to parse param <v>.\n"], Outcome.exited 1⟩
        | some v =>
          if v < 0 then ⟨[Event.stdout "Unable to parse param <v>.\n"], Outcome.exited 1⟩
          else
            match env.version url (resolvedPath env migrationsPath) with
            | Except.error err =>
                ⟨[Event.engine (EngineCall.Version url (resolvedPath env migrationsPath)),
                  Event.stdout (err ++ "\n")], Outcome.exited 1⟩
            | Except.ok c =>
                ⟨Event.engine (EngineCall.Version url (resolvedPath env migrationsPath)) ::
                  (streamPipe env
                    (EngineCall.Migrate url (resolvedPath env migrationsPath)
                      (wrapInt (v - wrapInt c)))
                    (env.migrate url (resolvedPath env migrationsPath)
                      (wrapInt (v - wrapInt c)))).trace,
                 (streamPipe env
                    (EngineCall.Migrate url (resolvedPath env migrationsPath)
                      (wrapInt (v - wrapInt c)))
                    (env.migrate url (resolvedPath env migrationsPath)
                      (wrapInt (v - wrapInt c)))).outcome⟩ := by
  by_cases hp : resolvedPath env migrationsPath = ""
  · have hp2 := hp
    unfold resolvedPath at hp2
    simp [Run, verifyMigrationsPath, hp, hp2]
  · have hp2 := hp
    simp only [resolvedPath] at hp2
    simp only [Run, verifyMigrationsPath, resolvedPath, hp2, if_false]
    simp

/-- What `Run` does for `migrate`, case by case on the path and the
argument. -/
theorem Run_migrate_eq (env : Env) (migrationsPath url arg : String) :
    Run env migrationsPath url "migrate" arg =
      if resolvedPath env migrationsPath = "" then
        ⟨[Event.stdout "Please specify path\n"], Outcome.exited 1⟩
      else
        match Atoi arg with
        | none => ⟨[Event.stdout "Unable to parse param <n>.\n"], Outcome.exited 1⟩
        | some n =>
            streamPipe env (EngineCall.Migrate url (resolvedPath env migrationsPath) n)
              (env.migrate url (resolvedPath env migrationsPath) n) := by
  by_cases hp : resolvedPath env migrationsPath = ""
  · have hp2 := hp
    unfold resolvedPath at hp2
    simp [Run, verifyMigrationsPath, hp, hp2]
  · have hp2 := hp
    simp only [resolvedPath] at hp2
    simp only [Run, verifyMigrationsPath, resolvedPath, hp2, if_false]
    simp

/-- Everything `writePipe` does is printing. -/
theorem writePipe_prints (items : List Item) (e : Event)
    (he : e ∈ (writePipe (some items)).2) :
    (∃ text, e = Event.stdout text) ∨ (∃ c text, e = Event.colored c text) := by
  rw [writePipe_some] at he
  simp only [List.mem_flatten, List.mem_map] at he
  obtain ⟨l, ⟨i, _, rfl⟩, hel⟩ := he
  cases i <;> simp [render] at hel <;> aesop

/-- Claim C6: `goto` with an argument that does not parse or is negative exits
with status 1 having done nothing but print, so no pipe, no `Migrate` and no
version query; `goto` with a failing version query exits with status 1 without
a pipe and without `Migrate`; and whenever `goto` does call `Migrate`, the
version query came first and succeeded, and the offset is computed from its
answer. -/
theorem Run_goto_fatal (env : Env) (migrationsPath url arg : String) :
    ((Atoi arg = none ∨ ∃ v, Atoi arg = some v ∧ v < 0) →
      (Run env migrationsPath url "goto" arg).outcome = Outcome.exited 1 ∧
      ∀ e ∈ (Run env migrationsPath url "goto" arg).trace, ∃ text, e = Event.stdout text) ∧
    (∀ err, env.version url (resolvedPath env migrationsPath) = Except.error err →
      (Run env migrationsPath url "goto" arg).outcome = Outcome.exited 1 ∧
      Event.pipeNew ∉ (Run env migrationsPath url "goto" arg).trace ∧
      ∀ u p n, Event.engine (EngineCall.Migrate u p n) ∉
        (Run env migrationsPath url "goto" arg).trace) ∧
    (∀ u p n, Event.engine (EngineCall.Migrate u p n) ∈
        (Run env migrationsPath url "goto" arg).trace →
      ∃ (v : Int) (c : Nat) (rest : List Event), Atoi arg = some v ∧ 0 ≤ v ∧
        env.version url (resolvedPath env migrationsPath) = Except.ok c ∧
        u = url ∧ p = resolvedPath env migrationsPath ∧ n = wrapInt (v - wrapInt c) ∧
        (Run env migrationsPath url "goto" arg).trace =
          Event.engine (EngineCall.Version url (resolvedPath env migrationsPath)) ::
          Event.pipeNew :: Event.engine (EngineCall.Migrate u p n) :: rest) := by
  rw [Run_goto_eq]
  by_cases hp : resolvedPath env migrationsPath = ""
  · simp [hp]
  · simp only [hp, if_false]
    cases ha : Atoi arg with
    | none => simp
    | some v =>
      by_cases hv : v < 0
      · simp [hv]
      · cases hc : env.version url (resolvedPath env migrationsPath) with
        | error err => simp [hv]
        | ok c =>
          simp only [hv, if_false]
          refine ⟨by simp [hv], by simp, ?_⟩
          intro u p n hmem
          simp only [streamPipe, List.mem_cons, List.mem_append, List.cons_append,
            List.nil_append, List.mem_singleton] at hmem
          have hcase : Event.engine (EngineCall.Migrate u p n) =
              Event.engine (EngineCall.Migrate url (resolvedPath env migrationsPath)
                (wrapInt (v - wrapInt c))) := by
            rcases hmem with h | h | h | h | h | h
            · cases h
            · cases h
            · exact h
            · rcases writePipe_prints _ _ h with ⟨t, ht⟩ | ⟨c, t, ht⟩ <;> cases ht
            · cases h
            · cases h
          injection hcase with hcase
          injection hcase with h1 h2 h3
          subst h1 h2 h3
          exact ⟨v, c, (writePipe (some (env.migrate u (resolvedPath env migrationsPath)
            (wrapInt (v - wrapInt c))))).2 ++ [Event.stdout (printTimer env.elapsed)],
            rfl, not_lt.mp hv, rfl, rfl, rfl, rfl, by simp [streamPipe]⟩

/-- Claim C6 at a failing version query: `goto 5` on the engine that cannot
be reached exits with status 1, and neither a pipe nor `Migrate` appears. -/
theorem Run_goto_fatal_witness :
    brokenEnv.version "db" (resolvedPath brokenEnv "") = Except.error "connection refused" ∧
    (Run brokenEnv "" "db" "goto" "5").outcome = Outcome.exited 1 ∧
    Event.pipeNew ∉ (Run brokenEnv "" "db" "goto" "5").trace ∧
    ∀ u p n, Event.engine (EngineCall.Migrate u p n) ∉ (Run brokenEnv "" "db" "goto" "5").trace :=
  ⟨rfl, (Run_goto_fatal brokenEnv "" "db" "5").2.1 "connection refused" rfl⟩

/-- What `Run` does for the four commands without an argument, on a path that
is not empty. -/
theorem Run_plain_eq (env : Env) (migrationsPath url arg : String)
    (hp : resolvedPath env migrationsPath ≠ "") :
    Run env migrationsPath url "up" arg =
      streamPipe env (EngineCall.Up url (resolvedPath env migrationsPath))
        (env.up url (resolvedPath env migrationsPath)) ∧
    Run env migrationsPath url "down" arg =
      streamPipe env (EngineCall.Down url (resolvedPath env migrationsPath))
        (env.down url (resolvedPath env migrationsPath)) ∧
    Run env migrationsPath url "redo" arg =
      streamPipe env (EngineCall.Redo url (resolvedPath env migrationsPath))
        (env.redo url (resolvedPath env migrationsPath)) ∧
    Run env migrationsPath url "reset" arg =
      streamPipe env (EngineCall.Reset url (resolvedPath env migrationsPath))
        (env.reset url (resolvedPath env migrationsPath)) := by
  have hp2 := hp
  simp only [resolvedPath] at hp2
  refine ⟨?_, ?_, ?_, ?_⟩ <;>
  · simp only [Run, verifyMigrationsPath, resolvedPath, hp2, if_false]
    simp

/-- Claim C4: for each of `up`, `down`, `redo`, `reset`, for `migrate` with an
argument that parses, and for `goto` with an argument that parses to a number
that is not negative and a version query that succeeds, all on a path that is
not empty, `Run` creates the pipe, starts the engine call, prints everything
`writePipe` prints for the items sent and then the timer line as its last
action, whether an error item was among them or not; it exits with status 1
if and only if `writePipe` returned false and returns otherwise. -/
theorem Run_streaming_prints_timer (env : Env) (migrationsPath url arg : String)
    (hp : resolvedPath env migrationsPath ≠ "") :
    DrainsThenTimes env [] (EngineCall.Up url (resolvedPath env migrationsPath))
      (env.up url (resolvedPath env migrationsPath)) (Run env migrationsPath url "up" arg) ∧
    DrainsThenTimes env [] (EngineCall.Down url (resolvedPath env migrationsPath))
      (env.down url (resolvedPath env migrationsPath)) (Run env migrationsPath url "down" arg) ∧
    DrainsThenTimes env [] (EngineCall.Redo url (resolvedPath env migrationsPath))
      (env.redo url (resolvedPath env migrationsPath)) (Run env migrationsPath url "redo" arg) ∧
    DrainsThenTimes env [] (EngineCall.Reset url (resolvedPath env migrationsPath))
      (env.reset url (resolvedPath env migrationsPath)) (Run env migrationsPath url "reset" arg) ∧
    (∀ n, Atoi arg = some n →
      DrainsThenTimes env [] (EngineCall.Migrate url (resolvedPath env migrationsPath) n)
        (env.migrate url (resolvedPath env migrationsPath) n)
        (Run env migrationsPath url "migrate" arg)) ∧
    (∀ (v : Int) (c : Nat), Atoi arg = some v → 0 ≤ v →
      env.version url (resolvedPath env migrationsPath) = Except.ok c →
      DrainsThenTimes env
        [Event.engine (EngineCall.Version url (resolvedPath env migrationsPath))]
        (EngineCall.Migrate url (resolvedPath env migrationsPath) (wrapInt (v - wrapInt c)))
        (env.migrate url (resolvedPath env migrationsPath) (wrapInt (v - wrapInt c)))
        (Run env migrationsPath url "goto" arg)) := by
  obtain ⟨h1, h2, h3, h4⟩ := Run_plain_eq env migrationsPath url arg hp
  refine ⟨?_, ?_, ?_, ?_, ?_, ?_⟩
  · rw [h1]; exact streamPipe_drains _ _ _
  · rw [h2]; exact streamPipe_drains _ _ _
  · rw [h3]; exact streamPipe_drains _ _ _
  · rw [h4]; exact streamPipe_drains _ _ _
  · intro n hn
    rw [Run_migrate_eq]
    simp only [hp, if_false, hn]
    exact streamPipe_drains _ _ _
  · intro v c hv h0 hc
    rw [Run_goto_eq]
    simp only [hp, if_false, hv, hc, not_lt.mpr h0]
    obtain ⟨d1, d2, d3⟩ := streamPipe_drains env
      (EngineCall.Migrate url (resolvedPath env migrationsPath) (wrapInt (v - wrapInt c)))
      (env.migrate url (resolvedPath env migrationsPath) (wrapInt (v - wrapInt c)))
    refine ⟨?_, d2, d3⟩
    simp only [d1]
    simp

/-- Claim C4 at `redo` on the sample engine, whose `Redo` sends one error: the
error is printed in red, the timer line follows, and the run exits with
status 1. -/
theorem Run_streaming_prints_timer_witness :
    resolvedPath sampleEnv "" ≠ "" ∧
    (Run sampleEnv "" "db" "redo" "").trace =
      [Event.pipeNew, Event.engine (EngineCall.Redo "db" "/srv/app"),
        Event.colored Color.FgRed "no such table \n\n",
        Event.stdout "\n45.0000 seconds\n"] ∧
    (Run sampleEnv "" "db" "redo" "").outcome.status = 1 :=
  ⟨by decide,
    ((Run_streaming_prints_timer sampleEnv "" "db" "" (by decide)).2.2.1.1).trans (by decide),
    ((Run_streaming_prints_timer sampleEnv "" "db" "" (by decide)).2.2.1.2.1).mpr (by decide)⟩

/-- A string `Atoi` accepts denotes the value `Atoi` gives, and the value is
in the range of `int`. -/
theorem Atoi_some (s : String) (n : Int) (h : Atoi s = some n) :
    decimalValue s = some n ∧ -(2 : Int) ^ 63 ≤ n ∧ n < (2 : Int) ^ 63 := by
  unfold Atoi at h
  cases hd : decimalValue s with
  | none => simp [hd] at h
  | some m =>
    simp only [hd] at h
    by_cases hr : -(2 : Int) ^ 63 ≤ m ∧ m < (2 : Int) ^ 63
    · rw [if_pos hr] at h
      injection h with h
      subst h
      exact ⟨rfl, hr⟩
    · rw [if_neg hr] at h
      exact Option.noConfusion h

/-- A numeral whose value is in the range of `int` is accepted by `Atoi`. -/
theorem Atoi_of_decimalValue (s : String) (n : Int) (h : decimalValue s = some n)
    (hlo : -(2 : Int) ^ 63 ≤ n) (hhi : n < (2 : Int) ^ 63) : Atoi s = some n := by
  unfold Atoi
  simp only [h]
  rw [if_pos ⟨hlo, hhi⟩]

/-- The `int` subtraction of a converted unsigned number gives the exact
difference whenever the exact difference is in the range of `int`. -/
theorem wrapInt_sub_wrapInt (v c : Int) (hlo : -(2 : Int) ^ 63 ≤ v - c)
    (hhi : v - c < (2 : Int) ^ 63) : wrapInt (v - wrapInt c) = v - c := by
  unfold wrapInt
  norm_num at hlo hhi ⊢
  omega

/-- Claim C3, as the code has it: when the argument of `goto` parses to a
number `v` that is not negative, the version query answers `c`, and the exact
difference `v - c` is not below `-2^63`, then `goto` does what `migrate` does
on any numeral of `v - c`, with the version query made first: on a path that
is not empty the run of `goto` is the version query followed by exactly the
run of `migrate`, the call of `Migrate` with offset `v - c` included, and on
an empty path the two runs are the same; the two runs end the same way. -/
theorem Run_goto_eq_migrate (env : Env) (migrationsPath url gotoArg migrateArg : String)
    (v : Int) (c : Nat) (hv : Atoi gotoArg = some v) (h0 : 0 ≤ v)
    (hc : env.version url (resolvedPath env migrationsPath) = Except.ok c)
    (hm : decimalValue migrateArg = some (v - c)) (hlo : -(2 : Int) ^ 63 ≤ v - c) :
    (Run env migrationsPath url "goto" gotoArg).trace =
      (if resolvedPath env migrationsPath = "" then
        (Run env migrationsPath url "migrate" migrateArg).trace
       else
        Event.engine (EngineCall.Version url (resolvedPath env migrationsPath)) ::
          (Run env migrationsPath url "migrate" migrateArg).trace) ∧
    (Run env migrationsPath url "goto" gotoArg).trace.filter (fun e => !e.isVersionQuery) =
      (Run env migrationsPath url "migrate" migrateArg).trace ∧
    (Run env migrationsPath url "goto" gotoArg).outcome =
      (Run env migrationsPath url "migrate" migrateArg).outcome ∧
    (resolvedPath env migrationsPath ≠ "" →
      (Run env migrationsPath url "migrate" migrateArg).trace =
        [Event.pipeNew,
          Event.engine (EngineCall.Migrate url (resolvedPath env migrationsPath) (v - c))] ++
        (writePipe (some (env.migrate url (resolvedPath env migrationsPath) (v - c)))).2 ++
        [Event.stdout (printTimer env.elapsed)] ∧
      Event.engine (EngineCall.Migrate url (resolvedPath env migrationsPath) (v - c)) ∈
        (Run env migrationsPath url "goto" gotoArg).trace ∧
      Event.engine (EngineCall.Migrate url (resolvedPath env migrationsPath) (v - c)) ∈
        (Run env migrationsPath url "migrate" migrateArg).trace) := by
  have hhi : v - (c : Int) < (2 : Int) ^ 63 := by
    have := (Atoi_some gotoArg v hv).2.2
    omega
  have hma : Atoi migrateArg = some (v - c) := Atoi_of_decimalValue _ _ hm hlo hhi
  rw [Run_goto_eq, Run_migrate_eq]
  by_cases hp : resolvedPath env migrationsPath = ""
  · simp [hp, Event.isVersionQuery]
  · simp only [hp, if_false, hv, hc, hma, not_lt.mpr h0, wrapInt_sub_wrapInt v c hlo hhi]
    refine ⟨trivial, ?_, trivial,
      fun _ => ⟨by simp [streamPipe], by simp [streamPipe], by simp [streamPipe]⟩⟩
    simp only [streamPipe, List.filter_cons, Event.isVersionQuery, List.cons_append,
      List.nil_append, Bool.not_true, Bool.not_false, if_true, if_false]
    rw [List.filter_eq_self.mpr]
    · simp
    · intro e he
      simp only [List.mem_append, List.mem_singleton] at he
      rcases he with he | he
      · rcases writePipe_prints _ _ he with ⟨t, ht⟩ | ⟨k, t, ht⟩ <;> subst ht <;> rfl
      · subst he; rfl

/-- Claim C3 at `goto 5` on the sample engine, which is at version 3: the run
is the version query followed by the run of `migrate 2`, which calls `Migrate`
with offset 2, and both return. -/
theorem Run_goto_eq_migrate_witness :
    Atoi "5" = some 5 ∧ sampleEnv.version "db" (resolvedPath sampleEnv "") = Except.ok 3 ∧
    decimalValue "2" = some ((5 : Int) - ((3 : Nat) : Int)) ∧
    (Run sampleEnv "" "db" "goto" "5").trace =
      Event.engine (EngineCall.Version "db" "/srv/app") ::
        (Run sampleEnv "" "db" "migrate" "2").trace ∧
    (Run sampleEnv "" "db" "goto" "5").trace =
      [Event.engine (EngineCall.Version "db" "/srv/app"), Event.pipeNew,
        Event.engine (EngineCall.Migrate "db" "/srv/app" 2),
        Event.stdout "applying 001\n", Event.colored Color.FgBlue ">",
        Event.stdout " 001_init.up.sql\n", Event.stdout "\n45.0000 seconds\n"] ∧
    (Run sampleEnv "" "db" "goto" "5").outcome = (Run sampleEnv "" "db" "migrate" "2").outcome :=
  ⟨by decide, rfl, by decide,
    ((Run_goto_eq_migrate sampleEnv "" "db" "5" "2" 5 3 (by decide) (by decide) rfl (by decide)
      (by decide)).1).trans (by decide),
    by decide,
    (Run_goto_eq_migrate sampleEnv "" "db" "5" "2" 5 3 (by decide) (by decide) rfl (by decide)
      (by decide)).2.2.1⟩

/-- Claim C3 fails as stated, in two ways. With the store at version
`2^63 + 1`, `goto 0` calls `Migrate` with the offset `2^63 - 1` and returns,
while `migrate` with the exact difference `-(2^63 + 1)` as its argument reports
a parse error and exits with status 1 without calling the engine. And with the
store at version 3, `goto` with the argument `2^63` reports a parse error and
exits with status 1 without calling the engine, while `migrate` with the exact
difference `2^63 - 3` calls `Migrate` and returns. -/
theorem goto_differs_from_exact_migrate :
    (decimalValue "0" = some 0 ∧
     farEnv.version "db" "/srv/app" = Except.ok 9223372036854775809 ∧
     decimalValue "-9223372036854775809" =
       some ((0 : Int) - ((9223372036854775809 : Nat) : Int)) ∧
     Run farEnv "" "db" "goto" "0" =
       ⟨[Event.engine (EngineCall.Version "db" "/srv/app"), Event.pipeNew,
         Event.engine (EngineCall.Migrate "db" "/srv/app" 9223372036854775807),
         Event.stdout "applying 001\n", Event.colored Color.FgBlue ">",
         Event.stdout " 001_init.up.sql\n", Event.stdout "\n45.0000 seconds\n"],
        Outcome.returned⟩ ∧
     Run farEnv "" "db" "migrate" "-9223372036854775809" =
       ⟨[Event.stdout "Unable to parse param <n>.\n"], Outcome.exited 1⟩) ∧
    (decimalValue "9223372036854775808" = some 9223372036854775808 ∧
     sampleEnv.version "db" "/srv/app" = Except.ok 3 ∧
     decimalValue "9223372036854775805" =
       some ((9223372036854775808 : Int) - ((3 : Nat) : Int)) ∧
     Run sampleEnv "" "db" "goto" "9223372036854775808" =
       ⟨[Event.stdout "Unable to parse param <v>.\n"], Outcome.exited 1⟩ ∧
     Run sampleEnv "" "db" "migrate" "9223372036854775805" =
       ⟨[Event.pipeNew,
         Event.engine (EngineCall.Migrate "db" "/srv/app" 9223372036854775805),
         Event.stdout "applying 001\n", Event.colored Color.FgBlue ">",
         Event.stdout " 001_init.up.sql\n", Event.stdout "\n45.0000 seconds\n"],
        Outcome.returned⟩) := by
  refine ⟨⟨by decide, rfl, by decide, by decide, by decide⟩,
    ⟨by decide, rfl, by decide, by decide, by decide⟩⟩

/-! ## The timer: proofs -/

/-- The halving loop finds the position of the highest set bit. -/
theorem log2Floor_spec (fuel n : Nat) (hf : n ≤ fuel) (hn : 1 ≤ n) :
    2 ^ log2Floor fuel n ≤ n ∧ n < 2 ^ (log2Floor fuel n + 1) := by
  induction fuel generalizing n with
  | zero => omega
  | succ f ih =>
    unfold log2Floor
    by_cases h2 : n < 2
    · simp only [h2, if_true]
      omega
    · simp only [h2, if_false]
      have hdiv : n / 2 ≤ f := by omega
      have hpos : 1 ≤ n / 2 := by omega
      obtain ⟨h1, h3⟩ := ih (n / 2) hdiv hpos
      constructor
      · rw [pow_succ]; omega
      · rw [pow_succ]; omega

/-- Rounding to the nearest natural number does not go below a natural number
that the fraction is not below. -/
theorem roundHalfEven_ge (a b N : Nat) (hb : 0 < b) (h : N * b ≤ a) :
    N ≤ roundHalfEven a b := by
  have hq : N ≤ a / b := (Nat.le_div_iff_mul_le hb).mpr h
  unfold roundHalfEven
  simp only
  split_ifs <;> omega

/-- Rounding to the nearest natural number does not go above a natural number
that the fraction is not above. -/
theorem roundHalfEven_le (a b N : Nat) (hb : 0 < b) (h : a ≤ N * b) :
    roundHalfEven a b ≤ N := by
  have hdm := Nat.div_add_mod a b
  have hr : a % b < b := Nat.mod_lt a hb
  have hq : a / b ≤ N := by
    calc a / b ≤ N * b / b := Nat.div_le_div_right h
      _ = N := Nat.mul_div_cancel N hb
  by_cases hr0 : a % b = 0
  · unfold roundHalfEven
    simp only [hr0]
    split_ifs <;> omega
  · have hlt : a / b < N := by
      by_contra hcon
      have hN : a / b = N := by omega
      rw [← hN] at h
      have : b * (a / b) = a / b * b := Nat.mul_comm _ _
      omega
    unfold roundHalfEven
    simp only
    split_ifs <;> omega

/-- A natural power of two with a non-negative integer exponent, as a
rational power. -/
theorem two_pow_toNat (k : Int) (hk : 0 ≤ k) :
    (((2 : Nat) ^ k.toNat : Nat) : ℚ) = (2 : ℚ) ^ k := by
  have h : ((k.toNat : Nat) : Int) = k := Int.toNat_of_nonneg hk
  calc (((2 : Nat) ^ k.toNat : Nat) : ℚ) = (2 : ℚ) ^ (k.toNat : Nat) := by push_cast; rfl
    _ = (2 : ℚ) ^ ((k.toNat : Nat) : Int) := (zpow_natCast 2 k.toNat).symm
    _ = (2 : ℚ) ^ k := by rw [h]

/-- The exponent `binaryExponent` finds brackets the fraction between two
neighbouring powers of two. -/
theorem binaryExponent_spec (a d : Nat) (ha : 1 ≤ a) (hd : 1 ≤ d) :
    (2 : ℚ) ^ binaryExponent a d ≤ (a : ℚ) / d ∧
    (a : ℚ) / d < (2 : ℚ) ^ (binaryExponent a d + 1) := by
  obtain ⟨ha1, ha2⟩ := log2Floor_spec a a le_rfl ha
  obtain ⟨hd1, hd2⟩ := log2Floor_spec d d le_rfl hd
  have hdq : (0 : ℚ) < d := by exact_mod_cast hd
  have hP : (0 : ℚ) < (2 : ℚ) ^ (log2Floor a a) := by positivity
  have hQ : (0 : ℚ) < (2 : ℚ) ^ (log2Floor d d) := by positivity
  have ha1q : (2 : ℚ) ^ (log2Floor a a) ≤ a := by exact_mod_cast ha1
  have ha2q : (a : ℚ) < 2 * (2 : ℚ) ^ (log2Floor a a) := by
    have : (a : ℚ) < (2 : ℚ) ^ (log2Floor a a + 1) := by exact_mod_cast ha2
    rw [pow_succ] at this; linarith
  have hd1q : (2 : ℚ) ^ (log2Floor d d) ≤ d := by exact_mod_cast hd1
  have hd2q : (d : ℚ) < 2 * (2 : ℚ) ^ (log2Floor d d) := by
    have : (d : ℚ) < (2 : ℚ) ^ (log2Floor d d + 1) := by exact_mod_cast hd2
    rw [pow_succ] at this; linarith
  set k : Int := (log2Floor a a : Int) - (log2Floor d d : Int) with hk
  have hkq : (2 : ℚ) ^ k = (2 : ℚ) ^ (log2Floor a a) / (2 : ℚ) ^ (log2Floor d d) := by
    rw [hk, zpow_sub₀ (by norm_num : (2 : ℚ) ≠ 0), zpow_natCast, zpow_natCast]
  have hkpos : (0 : ℚ) < (2 : ℚ) ^ k := by positivity
  -- the test of the code is the comparison of `d * 2 ^ k` with `a`
  have hcond : binaryExponent a d = if (d : ℚ) * (2 : ℚ) ^ k ≤ a then k else k - 1 := by
    unfold binaryExponent
    simp only [← hk]
    by_cases hk0 : 0 ≤ k
    · simp only [hk0, if_true]
      have hc : (d * 2 ^ k.toNat ≤ a) ↔ ((d : ℚ) * (2 : ℚ) ^ k ≤ a) := by
        rw [← two_pow_toNat k hk0]
        constructor
        · intro h; exact_mod_cast h
        · intro h; exact_mod_cast h
      by_cases hcc : d * 2 ^ k.toNat ≤ a
      · rw [if_pos hcc, if_pos (hc.mp hcc)]
      · rw [if_neg hcc, if_neg (fun h => hcc (hc.mpr h))]
    · simp only [hk0, if_false]
      have hk1 : 0 ≤ -k := by omega
      have hinv : (2 : ℚ) ^ k * (2 : ℚ) ^ (-k) = 1 := by
        rw [← zpow_add₀ (by norm_num : (2 : ℚ) ≠ 0)]; simp
      have hnpos : (0 : ℚ) < (2 : ℚ) ^ (-k) := by positivity
      have hc : (d ≤ a * 2 ^ (-k).toNat) ↔ ((d : ℚ) * (2 : ℚ) ^ k ≤ a) := by
        have hcast : (d ≤ a * 2 ^ (-k).toNat) ↔ ((d : ℚ) ≤ a * (2 : ℚ) ^ (-k)) := by
          rw [← two_pow_toNat (-k) hk1]
          constructor
          · intro h; exact_mod_cast h
          · intro h; exact_mod_cast h
        rw [hcast]
        constructor
        · intro h
          have := mul_le_mul_of_nonneg_right h hkpos.le
          calc (d : ℚ) * 2 ^ k ≤ a * 2 ^ (-k) * 2 ^ k := this
            _ = a * (2 ^ k * 2 ^ (-k)) := by ring
            _ = a := by rw [hinv, mul_one]
        · intro h
          have := mul_le_mul_of_nonneg_right h hnpos.le
          calc (d : ℚ) = d * (2 ^ k * 2 ^ (-k)) := by rw [hinv, mul_one]
            _ = d * 2 ^ k * 2 ^ (-k) := by ring
            _ ≤ a * 2 ^ (-k) := this
      by_cases hcc : d ≤ a * 2 ^ (-k).toNat
      · rw [if_pos hcc, if_pos (hc.mp hcc)]
      · rw [if_neg hcc, if_neg (fun h => hcc (hc.mpr h))]
  rw [hcond]
  by_cases hle : (d : ℚ) * (2 : ℚ) ^ k ≤ a
  · rw [if_pos hle]
    refine ⟨?_, ?_⟩
    · rw [le_div_iff₀ hdq]; linarith
    · rw [div_lt_iff₀ hdq, zpow_add_one₀ (by norm_num : (2 : ℚ) ≠ 0), hkq]
      have : (2 : ℚ) ^ log2Floor a a / 2 ^ log2Floor d d * 2 * d
          = (2 : ℚ) ^ log2Floor a a * 2 * d / 2 ^ log2Floor d d := by ring
      rw [this, lt_div_iff₀ hQ]
      nlinarith
  · rw [if_neg hle]
    push_neg at hle
    refine ⟨?_, ?_⟩
    · rw [le_div_iff₀ hdq, zpow_sub_one₀ (by norm_num : (2 : ℚ) ≠ 0), hkq]
      have : (2 : ℚ) ^ log2Floor a a / 2 ^ log2Floor d d * 2⁻¹ * d
          = (2 : ℚ) ^ log2Floor a a * d / (2 * 2 ^ log2Floor d d) := by ring
      rw [this, div_le_iff₀ (by positivity)]
      nlinarith
    · rw [div_lt_iff₀ hdq]
      have : k - 1 + 1 = k := by ring
      rw [this]; linarith

/-- Rounding a positive fraction, taken apart: the result is `R * 2 ^ s` for a
natural number `R` that is the fraction scaled by `2 ^ (-s)` and rounded, and
the scaled fraction is at least `2 ^ 52`. -/
theorem roundFloat64_pos (x : Frac) (hn : 0 < x.num) (hd : 0 < x.den) :
    ∃ (R : Nat) (s : Int) (w : ℚ),
      (roundFloat64 x).val = (R : ℚ) * (2 : ℚ) ^ s ∧ 0 < (roundFloat64 x).den ∧
      0 < (roundFloat64 x).num ∧ w = x.val * (2 : ℚ) ^ (-s) ∧ (2 : ℚ) ^ (52 : Nat) ≤ w ∧
      (∀ N : Nat, (N : ℚ) ≤ w → N ≤ R) ∧ (∀ N : Nat, w ≤ (N : ℚ) → R ≤ N) := by
  obtain ⟨num, den⟩ := x
  simp only at hn hd
  obtain ⟨a, rfl⟩ := Int.eq_ofNat_of_zero_le hn.le
  have ha : 1 ≤ a := by omega
  have hdq : (0 : ℚ) < den := by exact_mod_cast hd
  have haq : (0 : ℚ) < a := by exact_mod_cast ha
  obtain ⟨he1, _⟩ := binaryExponent_spec a den ha hd
  have h2 : (2 : ℚ) ≠ 0 := by norm_num
  set s : Int := binaryExponent a den - 52 with hs
  have hne : ¬ ((a : Int) = 0) := by omega
  have hnl : ¬ ((a : Int) < 0) := by omega
  have hval : (Frac.mk (a : Int) den).val = (a : ℚ) / den := by simp [Frac.val]
  have hw52 : (2 : ℚ) ^ (52 : Nat) ≤ (a : ℚ) / den * (2 : ℚ) ^ (-s) := by
    have hspos : (0 : ℚ) < (2 : ℚ) ^ (-s) := by positivity
    have := mul_le_mul_of_nonneg_right he1 hspos.le
    rw [← zpow_add₀ h2] at this
    have he : binaryExponent a den + -s = ((52 : Nat) : Int) := by rw [hs]; push_cast; ring
    rw [he, zpow_natCast] at this
    exact this
  by_cases hs0 : 0 ≤ s
  · -- the scaled fraction is `a / (den * 2 ^ s)`
    have hB : 0 < den * 2 ^ s.toNat := by positivity
    have hBq : (0 : ℚ) < ((den * 2 ^ s.toNat : Nat) : ℚ) := by exact_mod_cast hB
    have hpw : (((2 : Nat) ^ s.toNat : Nat) : ℚ) = (2 : ℚ) ^ s := two_pow_toNat s hs0
    have hBcast : ((den * 2 ^ s.toNat : Nat) : ℚ) = (den : ℚ) * (2 : ℚ) ^ s := by
      rw [← hpw]; push_cast; ring
    have hw : (a : ℚ) / den * (2 : ℚ) ^ (-s) = (a : ℚ) / ((den * 2 ^ s.toNat : Nat) : ℚ) := by
      rw [hBcast, zpow_neg]; field_simp
    refine ⟨roundHalfEven a (den * 2 ^ s.toNat), s, (a : ℚ) / den * (2 : ℚ) ^ (-s),
      ?_, ?_, ?_, ?_, hw52, ?_, ?_⟩
    · unfold roundFloat64
      simp only [hne, if_false, hnl, Int.natAbs_ofNat, ← hs, hs0, if_true, Frac.val]
      rw [← hpw]; push_cast; ring
    · unfold roundFloat64
      simp only [hne, if_false, hnl, Int.natAbs_ofNat, ← hs, hs0, if_true]
      norm_num
    · unfold roundFloat64
      simp only [hne, if_false, hnl, Int.natAbs_ofNat, ← hs, hs0, if_true, one_mul]
      have hR : 2 ^ 52 ≤ roundHalfEven a (den * 2 ^ s.toNat) := by
        apply roundHalfEven_ge _ _ _ hB
        have h1 := hw52
        rw [hw, le_div_iff₀ hBq] at h1
        exact_mod_cast h1
      have hp : 0 < 2 ^ s.toNat := by positivity
      have : 0 < roundHalfEven a (den * 2 ^ s.toNat) * 2 ^ s.toNat :=
        Nat.mul_pos (by omega) hp
      exact_mod_cast this
    · rw [hval]
    · intro N hN
      apply roundHalfEven_ge _ _ _ hB
      rw [hw, le_div_iff₀ hBq] at hN
      exact_mod_cast hN
    · intro N hN
      apply roundHalfEven_le _ _ _ hB
      rw [hw, div_le_iff₀ hBq] at hN
      exact_mod_cast hN
  · -- the scaled fraction is `a * 2 ^ (-s) / den`
    have hs1 : 0 ≤ -s := by omega
    have hpw : (((2 : Nat) ^ (-s).toNat : Nat) : ℚ) = (2 : ℚ) ^ (-s) := two_pow_toNat (-s) hs1
    have hw : (a : ℚ) / den * (2 : ℚ) ^ (-s) = ((a * 2 ^ (-s).toNat : Nat) : ℚ) / (den : ℚ) := by
      rw [Nat.cast_mul, hpw]; ring
    refine ⟨roundHalfEven (a * 2 ^ (-s).toNat) den, s, (a : ℚ) / den * (2 : ℚ) ^ (-s),
      ?_, ?_, ?_, ?_, hw52, ?_, ?_⟩
    · unfold roundFloat64
      simp only [hne, if_false, hnl, Int.natAbs_ofNat, ← hs, hs0, Frac.val, one_mul]
      rw [hpw, zpow_neg]
      push_cast
      rw [div_eq_mul_inv, inv_inv]
    · unfold roundFloat64
      simp only [hne, if_false, hnl, Int.natAbs_ofNat, ← hs, hs0]
      positivity
    · unfold roundFloat64
      simp only [hne, if_false, hnl, Int.natAbs_ofNat, ← hs, hs0, one_mul]
      have hR : 2 ^ 52 ≤ roundHalfEven (a * 2 ^ (-s).toNat) den := by
        apply roundHalfEven_ge _ _ _ hd
        have h1 := hw52
        rw [hw, le_div_iff₀ hdq] at h1
        exact_mod_cast h1
      have : 0 < roundHalfEven (a * 2 ^ (-s).toNat) den := by omega
      exact_mod_cast this
    · rw [hval]
    · intro N hN
      apply roundHalfEven_ge _ _ _ hd
      rw [hw, le_div_iff₀ hdq] at hN
      exact_mod_cast hN
    · intro N hN
      apply roundHalfEven_le _ _ _ hd
      rw [hw, div_le_iff₀ hdq] at hN
      exact_mod_cast hN

/-- A number with a significand of at most 53 bits is at most `2 ^ 52` times
any power of two with a larger exponent. -/
theorem significand_bound (m : Nat) (j s : Int) (hm : m ≤ 2 ^ 53) (hjs : j < s) :
    (m : ℚ) * (2 : ℚ) ^ j ≤ (2 : ℚ) ^ (52 : Nat) * (2 : ℚ) ^ s := by
  have h2 : (2 : ℚ) ≠ 0 := by norm_num
  have hmq : (m : ℚ) ≤ (2 : ℚ) ^ (53 : Nat) := by exact_mod_cast hm
  have hj : (0 : ℚ) < (2 : ℚ) ^ j := by positivity
  calc (m : ℚ) * (2 : ℚ) ^ j ≤ (2 : ℚ) ^ (53 : Nat) * (2 : ℚ) ^ j :=
        mul_le_mul_of_nonneg_right hmq hj.le
    _ = (2 : ℚ) ^ ((53 : Int) + j) := by
        rw [zpow_add₀ h2]; norm_num
    _ ≤ (2 : ℚ) ^ ((52 : Int) + s) :=
        zpow_le_zpow_right₀ (by norm_num) (by omega)
    _ = (2 : ℚ) ^ (52 : Nat) * (2 : ℚ) ^ s := by
        rw [zpow_add₀ h2]; norm_num

/-- Rounding to `float64` does not cross a number that a `float64` holds
exactly: a positive value that is not below `m * 2 ^ j`, with `m` of at most
53 bits, is not rounded below it, and one that is not above it is not rounded
above it. -/
theorem roundFloat64_mono (x : Frac) (hn : 0 < x.num) (hd : 0 < x.den)
    (m : Nat) (j : Int) (hm : m ≤ 2 ^ 53) :
    ((m : ℚ) * (2 : ℚ) ^ j ≤ x.val → (m : ℚ) * (2 : ℚ) ^ j ≤ (roundFloat64 x).val) ∧
    (x.val ≤ (m : ℚ) * (2 : ℚ) ^ j → (roundFloat64 x).val ≤ (m : ℚ) * (2 : ℚ) ^ j) := by
  obtain ⟨R, s, w, hval, _, _, hw, hw52, hge, hle⟩ := roundFloat64_pos x hn hd
  have h2 : (2 : ℚ) ≠ 0 := by norm_num
  have hspos : (0 : ℚ) < (2 : ℚ) ^ s := by positivity
  have hnspos : (0 : ℚ) < (2 : ℚ) ^ (-s) := by positivity
  have hxw : x.val = w * (2 : ℚ) ^ s := by
    rw [hw, mul_assoc, ← zpow_add₀ h2]; simp
  have hR52 : (2 : ℚ) ^ (52 : Nat) ≤ (R : ℚ) := by
    have := hge (2 ^ 52) (by exact_mod_cast hw52)
    exact_mod_cast this
  rw [hval]
  by_cases hjs : s ≤ j
  · -- `m * 2 ^ j` is a whole multiple of `2 ^ s`
    have hjs0 : 0 ≤ j - s := by omega
    have hN : ((m * 2 ^ (j - s).toNat : Nat) : ℚ) * (2 : ℚ) ^ s = (m : ℚ) * (2 : ℚ) ^ j := by
      rw [Nat.cast_mul, two_pow_toNat (j - s) hjs0, mul_assoc, ← zpow_add₀ h2]
      congr 2; ring
    constructor
    · intro h
      rw [← hN]
      apply mul_le_mul_of_nonneg_right _ hspos.le
      have : m * 2 ^ (j - s).toNat ≤ R := by
        apply hge
        rw [← hN, hxw] at h
        exact le_of_mul_le_mul_right h hspos
      exact_mod_cast this
    · intro h
      rw [← hN]
      apply mul_le_mul_of_nonneg_right _ hspos.le
      have : R ≤ m * 2 ^ (j - s).toNat := by
        apply hle
        rw [← hN, hxw] at h
        exact le_of_mul_le_mul_right h hspos
      exact_mod_cast this
  · have hb := significand_bound m j s hm (by omega)
    constructor
    · intro _
      calc (m : ℚ) * (2 : ℚ) ^ j ≤ (2 : ℚ) ^ (52 : Nat) * (2 : ℚ) ^ s := hb
        _ ≤ (R : ℚ) * (2 : ℚ) ^ s := mul_le_mul_of_nonneg_right hR52 hspos.le
    · intro h
      have hx52 : (2 : ℚ) ^ (52 : Nat) * (2 : ℚ) ^ s ≤ x.val := by
        rw [hxw]; exact mul_le_mul_of_nonneg_right hw52 hspos.le
      have hwle : w ≤ ((2 ^ 52 : Nat) : ℚ) := by
        have : w * (2 : ℚ) ^ s ≤ (2 : ℚ) ^ (52 : Nat) * (2 : ℚ) ^ s := by
          rw [← hxw]; exact h.trans hb
        have := le_of_mul_le_mul_right this hspos
        exact_mod_cast this
      have hR : (R : ℚ) ≤ (2 : ℚ) ^ (52 : Nat) := by
        have := hle (2 ^ 52) hwle
        exact_mod_cast this
      calc (R : ℚ) * (2 : ℚ) ^ s ≤ (2 : ℚ) ^ (52 : Nat) * (2 : ℚ) ^ s :=
            mul_le_mul_of_nonneg_right hR hspos.le
        _ ≤ x.val := hx52
        _ ≤ (m : ℚ) * (2 : ℚ) ^ j := h

/-- Rounding keeps the denominator positive and does not make a value that is
zero or negative positive. -/
theorem roundFloat64_nonpos (x : Frac) (hn : x.num ≤ 0) :
    0 < (roundFloat64 x).den ∧ (roundFloat64 x).num ≤ 0 := by
  unfold roundFloat64
  by_cases h0 : x.num = 0
  · simp [h0]
  · have hlt : x.num < 0 := by omega
    simp only [h0, if_false, hlt, if_true]
    split_ifs
    · refine ⟨by norm_num, ?_⟩
      show -1 * ((_ : Nat) : Int) ≤ 0
      have := Int.natCast_nonneg (roundHalfEven x.num.natAbs
        (x.den * 2 ^ (binaryExponent x.num.natAbs x.den - 52).toNat) *
          2 ^ (binaryExponent x.num.natAbs x.den - 52).toNat)
      linarith
    · refine ⟨by positivity, ?_⟩
      show -1 * ((_ : Nat) : Int) ≤ 0
      have := Int.natCast_nonneg (roundHalfEven
        (x.num.natAbs * 2 ^ (-(binaryExponent x.num.natAbs x.den - 52)).toNat) x.den)
      linarith

/-- Go's truncating division and remainder by `Second`: they put the duration
together again, and both have the sign of the duration. -/
theorem tdiv_tmod_second (d : Int) :
    d = Int.tdiv d 1000000000 * 1000000000 + Int.tmod d 1000000000 ∧
    (0 ≤ d → 0 ≤ Int.tdiv d 1000000000 ∧ 0 ≤ Int.tmod d 1000000000 ∧
      Int.tmod d 1000000000 < 1000000000) ∧
    (d ≤ 0 → Int.tdiv d 1000000000 ≤ 0 ∧ Int.tmod d 1000000000 ≤ 0) := by
  have hsum := Int.tmod_add_tdiv d 1000000000
  refine ⟨by omega, ?_, ?_⟩
  · intro h
    rw [Int.tdiv_eq_ediv h (by norm_num), Int.tmod_eq_emod h (by norm_num)]
    omega
  · intro h
    have hneg : Int.tdiv d 1000000000 = -((-d) / 1000000000) := by
      have h1 := Int.neg_tdiv (-d) 1000000000
      rw [neg_neg] at h1
      rw [h1, Int.tdiv_eq_ediv (by omega) (by norm_num)]
    omega

/-- The comparison with 60 of a fraction with a positive denominator is the
comparison of its value. -/
theorem gt_sixty_iff (y : Frac) (hd : 0 < y.den) :
    Frac.gt y (Frac.ofInt 60) = true ↔ (60 : ℚ) < y.val := by
  have hdq : (0 : ℚ) < (y.den : ℚ) := by exact_mod_cast hd
  simp only [Frac.gt, Frac.ofInt, decide_eq_true_eq, Frac.val]
  rw [lt_div_iff₀ hdq]
  constructor
  · intro h
    have : ((60 * (y.den : Int) : Int) : ℚ) < ((y.num * ((1 : Nat) : Int) : Int) : ℚ) := by
      exact_mod_cast h
    push_cast at this
    linarith
  · intro h
    have : ((60 * (y.den : Int) : Int) : ℚ) < ((y.num * ((1 : Nat) : Int) : Int) : ℚ) := by
      push_cast
      linarith
    exact_mod_cast this

/-- The `float64` seconds of a duration are above 60 exactly when the duration
is more than sixty thousand million nanoseconds. -/
theorem Seconds_gt_sixty (d : Int) :
    Frac.gt (Seconds d) (Frac.ofInt 60) = true ↔ 60000000000 < d := by
  obtain ⟨hsum, hpos, hneg⟩ := tdiv_tmod_second d
  have hq : Frac.fdiv (Frac.ofInt (Int.tmod d 1000000000)) (Frac.ofInt 1000000000) =
      roundFloat64 ⟨Int.tmod d 1000000000, 1000000000⟩ := by
    simp [Frac.fdiv, Frac.ofInt]
  have hS : Seconds d =
      roundFloat64 ⟨Int.tdiv d 1000000000 *
          (roundFloat64 ⟨Int.tmod d 1000000000, 1000000000⟩).den +
          (roundFloat64 ⟨Int.tmod d 1000000000, 1000000000⟩).num,
        (roundFloat64 ⟨Int.tmod d 1000000000, 1000000000⟩).den⟩ := by
    unfold Seconds
    rw [hq]
    simp [Frac.fadd, Frac.ofInt]
  rw [hS]
  set sec := Int.tdiv d 1000000000 with hsec
  set nsec := Int.tmod d 1000000000 with hnsec
  set q := roundFloat64 ⟨nsec, 1000000000⟩ with hqdef
  by_cases hd0 : d ≤ 0
  · -- nothing is positive
    obtain ⟨hs, hn⟩ := hneg hd0
    obtain ⟨hqd, hqn⟩ := roundFloat64_nonpos ⟨nsec, 1000000000⟩ hn
    have hnum : sec * (q.den : Int) + q.num ≤ 0 := by
      have : sec * (q.den : Int) ≤ 0 :=
        mul_nonpos_of_nonpos_of_nonneg hs (Int.natCast_nonneg _)
      linarith
    obtain ⟨hyd, hyn⟩ := roundFloat64_nonpos ⟨sec * (q.den : Int) + q.num, q.den⟩ hnum
    rw [gt_sixty_iff _ hyd]
    have hv : (roundFloat64 ⟨sec * (q.den : Int) + q.num, q.den⟩).val ≤ 0 := by
      unfold Frac.val
      apply div_nonpos_of_nonpos_of_nonneg
      · exact_mod_cast hyn
      · positivity
    constructor
    · intro h; linarith
    · intro h; omega
  · have hdpos : 0 ≤ d := by omega
    obtain ⟨hs, hn, hn9⟩ := hpos hdpos
    by_cases hn0 : nsec = 0
    · -- a whole number of seconds
      have hqz : q = ⟨0, 1⟩ := by
        rw [hqdef, hn0]; simp [roundFloat64]
      rw [hqz]
      simp only [Nat.cast_one, mul_one, add_zero]
      have hspos : 0 < sec := by omega
      have hyd : 0 < (roundFloat64 ⟨sec, 1⟩).den := by
        obtain ⟨_, _, _, _, h2, _⟩ := roundFloat64_pos ⟨sec, 1⟩ hspos (by norm_num)
        exact h2
      rw [gt_sixty_iff _ hyd]
      have hval : (Frac.mk sec 1).val = (sec : ℚ) := by simp [Frac.val]
      constructor
      · intro h
        by_contra hcon
        have hle : sec ≤ 60 := by omega
        have hup := (roundFloat64_mono ⟨sec, 1⟩ hspos (by norm_num) 60 0 (by norm_num)).2
        rw [hval] at hup
        have : (roundFloat64 ⟨sec, 1⟩).val ≤ ((60 : Nat) : ℚ) * (2 : ℚ) ^ (0 : Int) := by
          apply hup
          have : (sec : ℚ) ≤ 60 := by exact_mod_cast hle
          simpa using this
        norm_num at this
        linarith
      · intro h
        have hge : 61 ≤ sec := by omega
        have hlo := (roundFloat64_mono ⟨sec, 1⟩ hspos (by norm_num) 61 0 (by norm_num)).1
        rw [hval] at hlo
        have : ((61 : Nat) : ℚ) * (2 : ℚ) ^ (0 : Int) ≤ (roundFloat64 ⟨sec, 1⟩).val := by
          apply hlo
          have : (61 : ℚ) ≤ sec := by exact_mod_cast hge
          simpa using this
        norm_num at this
        linarith
    · -- a fraction of a second on top
      have hnpos : 0 < nsec := by omega
      obtain ⟨R, s, w, _, hqd, hqn, _⟩ :=
        roundFloat64_pos ⟨nsec, 1000000000⟩ hnpos (by norm_num)
      have hqdq : (0 : ℚ) < (q.den : ℚ) := by exact_mod_cast hqd
      have hvn : (Frac.mk nsec 1000000000).val = (nsec : ℚ) / 1000000000 := by
        simp [Frac.val]
      obtain ⟨hqlo, hqup⟩ :=
        roundFloat64_mono ⟨nsec, 1000000000⟩ hnpos (by norm_num) 1 (-30) (by norm_num)
      obtain ⟨_, hqup1⟩ :=
        roundFloat64_mono ⟨nsec, 1000000000⟩ hnpos (by norm_num) 1 0 (by norm_num)
      have hnq1 : (1 : ℚ) ≤ nsec := by exact_mod_cast hnpos
      have hnq9 : (nsec : ℚ) < 1000000000 := by exact_mod_cast hn9
      have hqge : (1 : ℚ) / 1073741824 ≤ q.val := by
        have : ((1 : Nat) : ℚ) * (2 : ℚ) ^ (-30 : Int) ≤ q.val := by
          apply hqlo
          rw [hvn]
          norm_num
          rw [le_div_iff₀ (by norm_num)]
          linarith
        norm_num at this
        linarith
      have hqle : q.val ≤ 1 := by
        have : q.val ≤ ((1 : Nat) : ℚ) * (2 : ℚ) ^ (0 : Int) := by
          apply hqup1
          rw [hvn]
          norm_num
          rw [div_le_iff₀ (by norm_num)]
          linarith
        simpa using this
      have hsumnum : 0 < sec * (q.den : Int) + q.num := by
        have : 0 ≤ sec * (q.den : Int) := mul_nonneg hs (Int.natCast_nonneg _)
        linarith
      have hsumval : (Frac.mk (sec * (q.den : Int) + q.num) q.den).val = (sec : ℚ) + q.val := by
        simp only [Frac.val]
        push_cast
        field_simp
      obtain ⟨_, _, _, _, hyd, _⟩ :=
        roundFloat64_pos ⟨sec * (q.den : Int) + q.num, q.den⟩ hsumnum hqd
      rw [gt_sixty_iff _ hyd]
      constructor
      · intro h
        by_contra hcon
        have hle : sec ≤ 59 := by omega
        have hup := (roundFloat64_mono ⟨sec * (q.den : Int) + q.num, q.den⟩ hsumnum hqd
          60 0 (by norm_num)).2
        rw [hsumval] at hup
        have : (roundFloat64 ⟨sec * (q.den : Int) + q.num, q.den⟩).val ≤
            ((60 : Nat) : ℚ) * (2 : ℚ) ^ (0 : Int) := by
          apply hup
          have : (sec : ℚ) ≤ 59 := by exact_mod_cast hle
          norm_num
          linarith
        norm_num at this
        linarith
      · intro h
        have hge : 60 ≤ sec := by omega
        have hlo := (roundFloat64_mono ⟨sec * (q.den : Int) + q.num, q.den⟩ hsumnum hqd
          64424509441 (-30) (by norm_num)).1
        rw [hsumval] at hlo
        have : ((64424509441 : Nat) : ℚ) * (2 : ℚ) ^ (-30 : Int) ≤
            (roundFloat64 ⟨sec * (q.den : Int) + q.num, q.den⟩).val := by
          apply hlo
          have : (60 : ℚ) ≤ sec := by exact_mod_cast hge
          norm_num
          linarith
        norm_num at this
        linarith

/-- Rounding to the nearest natural number is off by at most a half. -/
theorem roundHalfEven_near (a b : Nat) (hb : 0 < b) :
    2 * a ≤ 2 * (roundHalfEven a b * b) + b ∧ 2 * (roundHalfEven a b * b) ≤ 2 * a + b := by
  have hdm := Nat.div_add_mod a b
  have hr : a % b < b := Nat.mod_lt a hb
  have hcomm : a / b * b = b * (a / b) := Nat.mul_comm _ _
  have hsucc : (a / b + 1) * b = b * (a / b) + b := by rw [Nat.add_mul, hcomm, Nat.one_mul]
  unfold roundHalfEven
  simp only
  split_ifs
  · rw [hcomm]; omega
  · rw [hsucc]; omega
  · rw [hcomm]; omega
  · rw [hsucc]; omega

/-- The four digits `pad4` writes. -/
theorem pad4_length (k : Nat) : (pad4 k).length = 4 := by
  simp [pad4, String.length]

/-- Rounding to `float64` keeps the denominator positive. -/
theorem roundFloat64_den_pos (x : Frac) : 0 < (roundFloat64 x).den := by
  unfold roundFloat64
  simp only
  split_ifs <;> norm_num

/-- The verb `%.4f` writes its value with four decimal places. -/
theorem formatFixed4_near (x : Frac) (hd : 0 < x.den) : FourPlaces x (formatFixed4 x) := by
  refine ⟨roundHalfEven (x.num.natAbs * 10000) x.den, rfl, pad4_length _, ?_⟩
  obtain ⟨h1, h2⟩ := roundHalfEven_near (x.num.natAbs * 10000) x.den hd
  have hdq : (0 : ℚ) < (x.den : ℚ) := by exact_mod_cast hd
  have habs : abs x.val = (x.num.natAbs : ℚ) / (x.den : ℚ) := by
    unfold Frac.val
    rw [abs_div, Nat.abs_cast, Nat.cast_natAbs, Int.cast_abs]
  have h1q : (2 : ℚ) * ((x.num.natAbs : ℚ) * 10000) ≤
      2 * ((roundHalfEven (x.num.natAbs * 10000) x.den : ℚ) * x.den) + x.den := by
    exact_mod_cast h1
  have h2q : (2 : ℚ) * ((roundHalfEven (x.num.natAbs * 10000) x.den : ℚ) * x.den) ≤
      2 * ((x.num.natAbs : ℚ) * 10000) + x.den := by
    exact_mod_cast h2
  have hup : (x.num.natAbs : ℚ) / (x.den : ℚ) ≤
      (roundHalfEven (x.num.natAbs * 10000) x.den : ℚ) / 10000 + 1 / 20000 := by
    rw [div_le_iff₀ hdq]
    linarith
  have hlo : (roundHalfEven (x.num.natAbs * 10000) x.den : ℚ) / 10000 - 1 / 20000 ≤
      (x.num.natAbs : ℚ) / (x.den : ℚ) := by
    rw [le_div_iff₀ hdq]
    linarith
  rw [habs, abs_le]
  constructor <;> linarith

set_option maxRecDepth 8000 in
/-- Claim C8: `printTimer` prints the elapsed seconds divided by 60 with four
decimal places and the suffix "minutes" exactly when the elapsed seconds are
above 60, which is when more than sixty thousand million nanoseconds have
passed, and otherwise the elapsed seconds with four decimal places and the
suffix "seconds"; exactly 60 seconds are printed in seconds, 45 seconds give
"45.0000 seconds" and 125 seconds give "2.0833 minutes". -/
theorem printTimer_minutes_or_seconds (elapsed : Int) :
    printTimer elapsed =
      (if Frac.gt (Seconds elapsed) (Frac.ofInt 60) = true then
        "\n" ++ formatFixed4 (Frac.fdiv (Seconds elapsed) (Frac.ofInt 60)) ++ " minutes\n"
       else "\n" ++ formatFixed4 (Seconds elapsed) ++ " seconds\n") ∧
    (Frac.gt (Seconds elapsed) (Frac.ofInt 60) = true ↔ 60000000000 < elapsed) ∧
    FourPlaces (Frac.fdiv (Seconds elapsed) (Frac.ofInt 60))
      (formatFixed4 (Frac.fdiv (Seconds elapsed) (Frac.ofInt 60))) ∧
    FourPlaces (Seconds elapsed) (formatFixed4 (Seconds elapsed)) ∧
    printTimer 45000000000 = "\n45.0000 seconds\n" ∧
    printTimer 125000000000 = "\n2.0833 minutes\n" ∧
    printTimer 60000000000 = "\n60.0000 seconds\n" ∧
    printTimer 60000000001 = "\n1.0000 minutes\n" := by
  refine ⟨?_, Seconds_gt_sixty elapsed, ?_, ?_, by decide, by decide, by decide, by decide⟩
  · unfold printTimer
    by_cases h : Frac.gt (Seconds elapsed) (Frac.ofInt 60) = true <;> simp [h]
  · exact formatFixed4_near _ (roundFloat64_den_pos _)
  · exact formatFixed4_near _ (roundFloat64_den_pos _)

end Migrate
